import Mathlib

/-!
Shallow embedding of the `fdt_parse` crate (src/lib.rs): a Flattened
Device Tree (FDT) blob parser.  Memory is modelled as a total function
`Nat → Nat`; every load masks each byte with `% 256`.  The host is taken
to be little-endian (the crate reads raw structs from memory and then
applies `to_be()` to every field), so a raw `u32`/`u64` load is a
little-endian decode and Rust's `to_be()` is a byte swap (`bswap32`,
`bswap64`).  A Rust panic (arithmetic-overflow on the `u32` subtraction
in `_parse_mem_reserve`, or an `unwrap` failure in `get_string`) is
modelled as `none` in an outer `Option` layer.
-/

/-- Byte of memory at absolute address `i` (loads mask to 8 bits). -/
def byteAt (mem : Nat → Nat) (i : Nat) : Nat := mem i % 256

/-- Raw little-endian `u32` load, i.e. the host value of a `u32` field read
by reinterpreting memory, before any `to_be()` conversion. -/
def readU32 (mem : Nat → Nat) (off : Nat) : Nat :=
  byteAt mem off + 256 * byteAt mem (off + 1) + 65536 * byteAt mem (off + 2) +
    16777216 * byteAt mem (off + 3)

/-- Big-endian `u32` decode of four bytes of memory (the on-wire value). -/
def readU32BE (mem : Nat → Nat) (off : Nat) : Nat :=
  byteAt mem (off + 3) + 256 * byteAt mem (off + 2) + 65536 * byteAt mem (off + 1) +
    16777216 * byteAt mem off

/-- Raw little-endian `u64` load of a reservation-entry field. -/
def readU64 (mem : Nat → Nat) (off : Nat) : Nat :=
  byteAt mem off + 256 * byteAt mem (off + 1) + 65536 * byteAt mem (off + 2) +
    16777216 * byteAt mem (off + 3) + 4294967296 * byteAt mem (off + 4) +
    1099511627776 * byteAt mem (off + 5) + 281474976710656 * byteAt mem (off + 6) +
    72057594037927936 * byteAt mem (off + 7)

/-- Big-endian `u64` decode of eight bytes of memory (the on-wire value). -/
def readU64BE (mem : Nat → Nat) (off : Nat) : Nat :=
  byteAt mem (off + 7) + 256 * byteAt mem (off + 6) + 65536 * byteAt mem (off + 5) +
    16777216 * byteAt mem (off + 4) + 4294967296 * byteAt mem (off + 3) +
    1099511627776 * byteAt mem (off + 2) + 281474976710656 * byteAt mem (off + 1) +
    72057594037927936 * byteAt mem off

/-- Rust `u32::to_be()` on a little-endian host: byte swap of a 32-bit value. -/
def bswap32 (x : Nat) : Nat :=
  (x % 256) * 16777216 + (x / 256 % 256) * 65536 + (x / 65536 % 256) * 256 +
    x / 16777216 % 256

/-- Rust `u64::to_be()` on a little-endian host: byte swap of a 64-bit value. -/
def bswap64 (x : Nat) : Nat :=
  (x % 256) * 72057594037927936 + (x / 256 % 256) * 281474976710656 +
    (x / 65536 % 256) * 1099511627776 + (x / 16777216 % 256) * 4294967296 +
    (x / 4294967296 % 256) * 16777216 + (x / 1099511627776 % 256) * 65536 +
    (x / 281474976710656 % 256) * 256 + x / 72057594037927936 % 256

/-- The FDT header magic constant `FDT_HDR_MAGIC = 0xd00dfeed`. -/
def FDT_HDR_MAGIC : Nat := 0xd00dfeed

/-- The ten 32-bit fields of the FDT header (`struct FdtHeader`). -/
structure FdtHeader where
  magic : Nat
  totalsize : Nat
  off_dt_struct : Nat
  off_dt_strings : Nat
  off_mem_rsvmap : Nat
  version : Nat
  last_comp_version : Nat
  boot_cpuid_phys : Nat
  size_dt_strings : Nat
  size_dt_struct : Nat
deriving DecidableEq

/-- One memory-reservation entry (`struct FdtReserveEntry`): two `u64`
fields, stored exactly as loaded from memory (on-wire byte order). -/
structure FdtReserveEntry where
  address : Nat
  size : Nat
deriving DecidableEq

/-- The error type (`enum FdtError`). -/
inductive FdtError where
  | InvalidMagic : FdtError
  | InvalidPointer : FdtError
  | NotFound : FdtError
deriving DecidableEq

/-- The parsed handle (`struct Fdt`). -/
structure Fdt where
  header : FdtHeader
  reserved_memory : List FdtReserveEntry
  dt_struct : List Nat
  dt_strings : List Nat
deriving DecidableEq

/-- The raw header as reinterpreted from memory at `fdt_addr`
(each field a little-endian `u32` load, before `to_be()`). -/
def rawHeader (fdt_addr : Nat) (mem : Nat → Nat) : FdtHeader :=
  { magic := readU32 mem fdt_addr
    totalsize := readU32 mem (fdt_addr + 4)
    off_dt_struct := readU32 mem (fdt_addr + 8)
    off_dt_strings := readU32 mem (fdt_addr + 12)
    off_mem_rsvmap := readU32 mem (fdt_addr + 16)
    version := readU32 mem (fdt_addr + 20)
    last_comp_version := readU32 mem (fdt_addr + 24)
    boot_cpuid_phys := readU32 mem (fdt_addr + 28)
    size_dt_strings := readU32 mem (fdt_addr + 32)
    size_dt_struct := readU32 mem (fdt_addr + 36) }

/-- Field-wise `to_be()` of a header, as `_parse_header` performs. -/
def bswapHeader (h : FdtHeader) : FdtHeader :=
  { magic := bswap32 h.magic
    totalsize := bswap32 h.totalsize
    off_dt_struct := bswap32 h.off_dt_struct
    off_dt_strings := bswap32 h.off_dt_strings
    off_mem_rsvmap := bswap32 h.off_mem_rsvmap
    version := bswap32 h.version
    last_comp_version := bswap32 h.last_comp_version
    boot_cpuid_phys := bswap32 h.boot_cpuid_phys
    size_dt_strings := bswap32 h.size_dt_strings
    size_dt_struct := bswap32 h.size_dt_struct }

/-- Embedding of `Fdt::_parse_header`: a one-element slice of the header
record is read from `fdt_addr`; if its first element's byte-swapped magic
equals `FDT_HDR_MAGIC`, the fully byte-swapped header is returned,
otherwise `InvalidMagic`; falling off the `if let Some` yields `NotFound`. -/
def _parse_header (fdt_addr : Nat) (mem : Nat → Nat) : Except FdtError FdtHeader :=
  match [rawHeader fdt_addr mem].head? with
  | some fdt_hdr =>
      if bswap32 fdt_hdr.magic == FDT_HDR_MAGIC then
        Except.ok (bswapHeader fdt_hdr)
      else
        Except.error FdtError.InvalidMagic
  | none => Except.error FdtError.NotFound

/-- The sentinel test of the scan loop in `_parse_mem_reserve`:
`entry.address == 0 && entry.size == 0`. -/
def isSentinel (e : FdtReserveEntry) : Bool := e.address == 0 && e.size == 0

/-- The reservation entry at zero-based index `i`: 16 bytes starting at
`fdt_addr + off_mem_rsvmap + 16*i`, the `address` field at offset 0 and the
`size` field at offset 8, each loaded as a raw (unswapped) `u64`. -/
def rsvEntry (fdt_addr : Nat) (mem : Nat → Nat) (fdt_hdr : FdtHeader) (i : Nat) :
    FdtReserveEntry :=
  { address := readU64 mem (fdt_addr + fdt_hdr.off_mem_rsvmap + 16 * i)
    size := readU64 mem (fdt_addr + fdt_hdr.off_mem_rsvmap + 16 * i + 8) }

/-- Embedding of `Fdt::_parse_mem_reserve`.  The entry count is the `u32`
subtraction `off_dt_struct - off_mem_rsvmap` divided by
`size_of::<FdtReserveEntry>() = 16`; when the subtraction underflows the
checked Rust arithmetic panics, modelled as `none`.  Otherwise the scan
keeps every entry before the first all-zero sentinel (the loop re-slices
to the enumeration index of the first sentinel, which is exactly the
longest non-sentinel prefix; with no sentinel the full slice is kept). -/
def _parse_mem_reserve (fdt_addr : Nat) (mem : Nat → Nat) (fdt_hdr : FdtHeader) :
    Option (List FdtReserveEntry) :=
  if fdt_hdr.off_dt_struct < fdt_hdr.off_mem_rsvmap then
    none
  else
    some ((
      (List.range ((fdt_hdr.off_dt_struct - fdt_hdr.off_mem_rsvmap) / 16)).map
        (rsvEntry fdt_addr mem fdt_hdr)).takeWhile (fun e => ! isSentinel e))

/-- Embedding of `Fdt::_parse_dt_struct`: `size_dt_struct` bytes starting
at `fdt_addr + off_dt_struct`. -/
def _parse_dt_struct (fdt_addr : Nat) (mem : Nat → Nat) (fdt_hdr : FdtHeader) : List Nat :=
  (List.range fdt_hdr.size_dt_struct).map (fun i => byteAt mem (fdt_addr + fdt_hdr.off_dt_struct + i))

/-- Embedding of `Fdt::_parse_dt_strings`: `size_dt_strings` bytes starting
at `fdt_addr + off_dt_strings`. -/
def _parse_dt_strings (fdt_addr : Nat) (mem : Nat → Nat) (fdt_hdr : FdtHeader) : List Nat :=
  (List.range fdt_hdr.size_dt_strings).map (fun i => byteAt mem (fdt_addr + fdt_hdr.off_dt_strings + i))

/-- Embedding of `Fdt::new`: null-pointer check, then header parse (its
error propagated), then the three region parsers; the outer `Option` is
`none` when `_parse_mem_reserve` panics. -/
def Fdt.new (fdt_addr : Nat) (mem : Nat → Nat) : Option (Except FdtError Fdt) :=
  if fdt_addr = 0 then
    some (Except.error FdtError.InvalidPointer)
  else
    match _parse_header fdt_addr mem with
    | Except.error e => some (Except.error e)
    | Except.ok hdr =>
        match _parse_mem_reserve fdt_addr mem hdr with
        | none => none
        | some mem_reserve =>
            some (Except.ok
              { header := hdr
                reserved_memory := mem_reserve
                dt_struct := _parse_dt_struct fdt_addr mem hdr
                dt_strings := _parse_dt_strings fdt_addr mem hdr })

/-- Embedding of `Fdt::get_reserved_memory_regions`: iterate the stored
entries, converting each field with `to_be()` at read time. -/
def Fdt.get_reserved_memory_regions (fdt : Fdt) : List (Nat × Nat) :=
  fdt.reserved_memory.map (fun x => (bswap64 x.address, bswap64 x.size))

/-- Index of the first NUL byte of a byte slice, as found by
`CStr::from_bytes_until_nul`'s scan. -/
def firstNul : List Nat → Option Nat
  | [] => none
  | b :: rest => if b == 0 then some 0 else (firstNul rest).map (· + 1)

/-- Embedding of `CStr::from_bytes_until_nul` followed by taking the
C string's contents: the bytes strictly before the first NUL, or `none`
(an error, which `get_string` unwraps) when no NUL exists. -/
def cstrFromBytesUntilNul (bs : List Nat) : Option (List Nat) :=
  match firstNul bs with
  | some k => some (bs.take k)
  | none => none

/-- Whether one byte is a UTF-8 continuation byte (`0x80..=0xBF`). -/
def isCont (b : Nat) : Bool := 128 ≤ b && b < 192

/-- UTF-8 validity of a byte sequence, as checked by `CStr::to_str`
(Rust `str::from_utf8`): ASCII, or well-formed 2-, 3- or 4-byte
sequences excluding overlongs, surrogates and values above U+10FFFF. -/
def validUtf8 : List Nat → Bool
  | [] => true
  | b0 :: rest =>
    if b0 < 128 then validUtf8 rest
    else if b0 < 194 then false
    else if b0 < 224 then
      match rest with
      | b1 :: rest2 => isCont b1 && validUtf8 rest2
      | [] => false
    else if b0 < 240 then
      match rest with
      | b1 :: b2 :: rest2 =>
          (if b0 == 224 then 160 ≤ b1 && b1 < 192
           else if b0 == 237 then 128 ≤ b1 && b1 < 160
           else isCont b1) && isCont b2 && validUtf8 rest2
      | _ => false
    else if b0 < 245 then
      match rest with
      | b1 :: b2 :: b3 :: rest2 =>
          (if b0 == 240 then 144 ≤ b1 && b1 < 192
           else if b0 == 244 then 128 ≤ b1 && b1 < 144
           else isCont b1) && isCont b2 && isCont b3 && validUtf8 rest2
      | _ => false
    else false

/-- Embedding of `Fdt::get_string`.  Outer `Option`: `none` is a panic
(either `unwrap`).  Inner `Option`: the Rust return value, `none` when
`offset` is not below `size_dt_strings`.  The slice
`dt_strings[offset..size_dt_strings]` panics (outer `none`) if
`size_dt_strings` exceeds the stored slice's length. -/
def Fdt.get_string (fdt : Fdt) (offset : Nat) : Option (Option (List Nat)) :=
  if offset < fdt.header.size_dt_strings then
    if fdt.header.size_dt_strings ≤ fdt.dt_strings.length then
      match cstrFromBytesUntilNul ((fdt.dt_strings.take fdt.header.size_dt_strings).drop offset) with
      | some bs => if validUtf8 bs then some (some bs) else none
      | none => none
    else none
  else some none

/-! ### Arithmetic helpers: byte swaps over byte-decomposed values -/

theorem byteAt_lt (mem : Nat → Nat) (i : Nat) : byteAt mem i < 256 :=
  Nat.mod_lt _ (by decide)

theorem bswap32Digits (b0 b1 b2 b3 : Nat) (h0 : b0 < 256) (h1 : b1 < 256)
    (h2 : b2 < 256) (h3 : b3 < 256) :
    bswap32 (b0 + 256 * b1 + 65536 * b2 + 16777216 * b3)
      = b3 + 256 * b2 + 65536 * b1 + 16777216 * b0 := by
  unfold bswap32
  omega

theorem bswap64Digits (b0 b1 b2 b3 b4 b5 b6 b7 : Nat) (h0 : b0 < 256) (h1 : b1 < 256)
    (h2 : b2 < 256) (h3 : b3 < 256) (h4 : b4 < 256) (h5 : b5 < 256)
    (h6 : b6 < 256) (h7 : b7 < 256) :
    bswap64 (b0 + 256 * b1 + 65536 * b2 + 16777216 * b3 + 4294967296 * b4 +
        1099511627776 * b5 + 281474976710656 * b6 + 72057594037927936 * b7)
      = b7 + 256 * b6 + 65536 * b5 + 16777216 * b4 + 4294967296 * b3 +
        1099511627776 * b2 + 281474976710656 * b1 + 72057594037927936 * b0 := by
  unfold bswap64
  omega

theorem bswap32_readU32 (mem : Nat → Nat) (off : Nat) :
    bswap32 (readU32 mem off) = readU32BE mem off := by
  unfold readU32 readU32BE
  exact bswap32Digits _ _ _ _ (byteAt_lt mem off) (byteAt_lt mem (off + 1))
    (byteAt_lt mem (off + 2)) (byteAt_lt mem (off + 3))

theorem bswap32_readU32BE (mem : Nat → Nat) (off : Nat) :
    bswap32 (readU32BE mem off) = readU32 mem off := by
  unfold readU32 readU32BE
  exact bswap32Digits _ _ _ _ (byteAt_lt mem (off + 3)) (byteAt_lt mem (off + 2))
    (byteAt_lt mem (off + 1)) (byteAt_lt mem off)

theorem bswap64_readU64 (mem : Nat → Nat) (off : Nat) :
    bswap64 (readU64 mem off) = readU64BE mem off := by
  unfold readU64 readU64BE
  exact bswap64Digits _ _ _ _ _ _ _ _ (byteAt_lt mem off) (byteAt_lt mem (off + 1))
    (byteAt_lt mem (off + 2)) (byteAt_lt mem (off + 3)) (byteAt_lt mem (off + 4))
    (byteAt_lt mem (off + 5)) (byteAt_lt mem (off + 6)) (byteAt_lt mem (off + 7))

/-! ### List helpers for the sentinel scan -/

theorem takeWhileEqTake {α : Type} (q : α → Bool) :
    ∀ (l : List α) (k : Nat),
      (∀ j, j < k → ∀ (h : j < l.length), q (l.get ⟨j, h⟩) = true) →
      (∀ (h : k < l.length), q (l.get ⟨k, h⟩) = false) →
      l.takeWhile q = l.take k := by
  intro l
  induction l with
  | nil => intro k _ _; simp
  | cons a t ih =>
    intro k hall hk
    cases k with
    | zero =>
      have ha : q a = false := hk (Nat.succ_pos _)
      simp [List.takeWhile_cons, ha]
    | succ k' =>
      have ha : q a = true := hall 0 (Nat.succ_pos _) (Nat.succ_pos _)
      rw [List.takeWhile_cons, if_pos ha, List.take_succ_cons]
      congr 1
      apply ih k'
      · intro j hj h
        exact hall (j + 1) (Nat.succ_lt_succ hj) (Nat.succ_lt_succ h)
      · intro h
        exact hk (Nat.succ_lt_succ h)

theorem getElemTakeWhile {α : Type} (q : α → Bool) :
    ∀ (l : List α) (i : Nat) (x : α), (l.takeWhile q)[i]? = some x → l[i]? = some x := by
  intro l
  induction l with
  | nil => intro i x hx; simp at hx
  | cons a t ih =>
    intro i x hx
    cases hqa : q a with
    | false =>
      rw [List.takeWhile_cons, if_neg (by simp [hqa])] at hx
      simp at hx
    | true =>
      rw [List.takeWhile_cons, if_pos hqa] at hx
      cases i with
      | zero => simpa using hx
      | succ i' =>
        rw [List.getElem?_cons_succ] at hx ⊢
        exact ih i' x hx

theorem getRangeMap {α : Type} (f : Nat → α) (n i : Nat)
    (h : i < ((List.range n).map f).length) :
    ((List.range n).map f).get ⟨i, h⟩ = f i := by
  simp

/-! ### First-NUL scan helper for `get_string` -/

theorem cstrOfMemNul :
    ∀ (l : List Nat), 0 ∈ l →
      cstrFromBytesUntilNul l = some (l.takeWhile (fun b => b != 0)) := by
  intro l
  induction l with
  | nil => intro h; simp at h
  | cons a t ih =>
    intro h
    by_cases ha : a = 0
    · subst ha
      simp [cstrFromBytesUntilNul, firstNul, List.takeWhile_cons]
    · have ht : 0 ∈ t := by
        rcases List.mem_cons.mp h with h0 | h0
        · exact absurd h0.symm ha
        · exact h0
      have hrec := ih ht
      unfold cstrFromBytesUntilNul at hrec ⊢
      rw [List.takeWhile_cons]
      cases hf : firstNul t with
      | none => rw [hf] at hrec; simp at hrec
      | some k =>
        rw [hf] at hrec
        simp only [Option.some.injEq] at hrec
        have hfa : firstNul (a :: t) = some (k + 1) := by
          unfold firstNul
          rw [if_neg (by simpa using ha), hf]
          rfl
        rw [hfa]
        simp only [List.take_succ_cons, Option.some.injEq]
        rw [if_pos (by simpa using ha)]
        rw [hrec]

/-! ### Claims about the reservation-table extractor -/

/-- C1: for every reservation table whose first all-zero sentinel sits at
zero-based index `k` within the computed upper bound, `_parse_mem_reserve`
stores exactly the `k` entries before the sentinel, none of which is the
sentinel; with `k = 0` the extracted sequence is empty. -/
theorem mem_reserve_sentinel_spec (fdt_addr : Nat) (mem : Nat → Nat) (fdt_hdr : FdtHeader)
    (k : Nat)
    (hle : fdt_hdr.off_mem_rsvmap ≤ fdt_hdr.off_dt_struct)
    (hk : k < (fdt_hdr.off_dt_struct - fdt_hdr.off_mem_rsvmap) / 16)
    (hsent : isSentinel (rsvEntry fdt_addr mem fdt_hdr k) = true)
    (hbefore : ∀ j, j < k → isSentinel (rsvEntry fdt_addr mem fdt_hdr j) = false) :
    _parse_mem_reserve fdt_addr mem fdt_hdr
        = some ((List.range k).map (rsvEntry fdt_addr mem fdt_hdr)) ∧
    ((List.range k).map (rsvEntry fdt_addr mem fdt_hdr)).length = k ∧
    (∀ e ∈ (List.range k).map (rsvEntry fdt_addr mem fdt_hdr), isSentinel e = false) := by
  have hmain : _parse_mem_reserve fdt_addr mem fdt_hdr
      = some ((List.range k).map (rsvEntry fdt_addr mem fdt_hdr)) := by
    unfold _parse_mem_reserve
    rw [if_neg (Nat.not_lt.mpr hle)]
    have h1 : ∀ j, j < k →
        ∀ (h : j < ((List.range ((fdt_hdr.off_dt_struct - fdt_hdr.off_mem_rsvmap) / 16)).map
            (rsvEntry fdt_addr mem fdt_hdr)).length),
        (! isSentinel (((List.range ((fdt_hdr.off_dt_struct - fdt_hdr.off_mem_rsvmap) / 16)).map
            (rsvEntry fdt_addr mem fdt_hdr)).get ⟨j, h⟩)) = true := by
      intro j hj h
      rw [getRangeMap]
      simp [hbefore j hj]
    have h2 : ∀ (h : k < ((List.range ((fdt_hdr.off_dt_struct - fdt_hdr.off_mem_rsvmap) / 16)).map
            (rsvEntry fdt_addr mem fdt_hdr)).length),
        (! isSentinel (((List.range ((fdt_hdr.off_dt_struct - fdt_hdr.off_mem_rsvmap) / 16)).map
            (rsvEntry fdt_addr mem fdt_hdr)).get ⟨k, h⟩)) = false := by
      intro h
      rw [getRangeMap]
      simp [hsent]
    have ht := takeWhileEqTake (fun e => ! isSentinel e)
      ((List.range ((fdt_hdr.off_dt_struct - fdt_hdr.off_mem_rsvmap) / 16)).map
        (rsvEntry fdt_addr mem fdt_hdr)) k h1 h2
    rw [ht, ← List.map_take, List.take_range, Nat.min_eq_left (Nat.le_of_lt hk)]
  refine ⟨hmain, by simp, ?_⟩
  intro e he
  rw [List.mem_map] at he
  obtain ⟨j, hj, rfl⟩ := he
  rw [List.mem_range] at hj
  exact hbefore j hj

/-- C6: when no sentinel occurs within the computed upper bound, the full
bound-limited range of exactly `(off_dt_struct - off_mem_rsvmap) / 16`
entries is returned and no error is raised. -/
theorem mem_reserve_no_sentinel_full (fdt_addr : Nat) (mem : Nat → Nat) (fdt_hdr : FdtHeader)
    (hle : fdt_hdr.off_mem_rsvmap ≤ fdt_hdr.off_dt_struct)
    (hns : ∀ j, j < (fdt_hdr.off_dt_struct - fdt_hdr.off_mem_rsvmap) / 16 →
        isSentinel (rsvEntry fdt_addr mem fdt_hdr j) = false) :
    _parse_mem_reserve fdt_addr mem fdt_hdr
        = some ((List.range ((fdt_hdr.off_dt_struct - fdt_hdr.off_mem_rsvmap) / 16)).map
            (rsvEntry fdt_addr mem fdt_hdr)) ∧
    ((List.range ((fdt_hdr.off_dt_struct - fdt_hdr.off_mem_rsvmap) / 16)).map
        (rsvEntry fdt_addr mem fdt_hdr)).length
      = (fdt_hdr.off_dt_struct - fdt_hdr.off_mem_rsvmap) / 16 := by
  refine ⟨?_, by simp⟩
  unfold _parse_mem_reserve
  rw [if_neg (Nat.not_lt.mpr hle)]
  have h1 : ∀ j, j < (fdt_hdr.off_dt_struct - fdt_hdr.off_mem_rsvmap) / 16 →
      ∀ (h : j < ((List.range ((fdt_hdr.off_dt_struct - fdt_hdr.off_mem_rsvmap) / 16)).map
          (rsvEntry fdt_addr mem fdt_hdr)).length),
      (! isSentinel (((List.range ((fdt_hdr.off_dt_struct - fdt_hdr.off_mem_rsvmap) / 16)).map
          (rsvEntry fdt_addr mem fdt_hdr)).get ⟨j, h⟩)) = true := by
    intro j hj h
    rw [getRangeMap]
    simp [hns j hj]
  have h2 : ∀ (h : (fdt_hdr.off_dt_struct - fdt_hdr.off_mem_rsvmap) / 16 <
      ((List.range ((fdt_hdr.off_dt_struct - fdt_hdr.off_mem_rsvmap) / 16)).map
          (rsvEntry fdt_addr mem fdt_hdr)).length), False := by
    intro h
    simp at h
  have ht := takeWhileEqTake (fun e => ! isSentinel e)
    ((List.range ((fdt_hdr.off_dt_struct - fdt_hdr.off_mem_rsvmap) / 16)).map
      (rsvEntry fdt_addr mem fdt_hdr)) ((fdt_hdr.off_dt_struct - fdt_hdr.off_mem_rsvmap) / 16)
    h1 (fun h => absurd h (fun h => h2 h))
  rw [ht, List.take_of_length_le (by simp)]

/-- C9: the stored reservation sequence holds the raw on-wire (unswapped)
entry values, and `get_reserved_memory_regions` byte-swaps each field at
iteration time, so every yielded pair is the host-order (big-endian
decoded) value of the corresponding on-wire entry. -/
theorem reserved_regions_host_order (fdt_addr : Nat) (mem : Nat → Nat) (fdt_hdr : FdtHeader)
    (l : List FdtReserveEntry) (fdt : Fdt)
    (hp : _parse_mem_reserve fdt_addr mem fdt_hdr = some l)
    (hs : fdt.reserved_memory = l) :
    (∀ i e, l[i]? = some e → e = rsvEntry fdt_addr mem fdt_hdr i) ∧
    (∀ i p, (Fdt.get_reserved_memory_regions fdt)[i]? = some p →
        p = (readU64BE mem (fdt_addr + fdt_hdr.off_mem_rsvmap + 16 * i),
             readU64BE mem (fdt_addr + fdt_hdr.off_mem_rsvmap + 16 * i + 8))) := by
  unfold _parse_mem_reserve at hp
  by_cases hlt : fdt_hdr.off_dt_struct < fdt_hdr.off_mem_rsvmap
  · rw [if_pos hlt] at hp
    exact absurd hp (by simp)
  · rw [if_neg hlt] at hp
    injection hp with hp'
    have hraw : ∀ i e, l[i]? = some e → e = rsvEntry fdt_addr mem fdt_hdr i := by
      intro i e he
      rw [← hp'] at he
      have hfull := getElemTakeWhile (fun e => ! isSentinel e) _ i e he
      rw [List.getElem?_map] at hfull
      by_cases hin : i < (fdt_hdr.off_dt_struct - fdt_hdr.off_mem_rsvmap) / 16
      · rw [List.getElem?_range hin] at hfull
        simp only [Option.map_some'] at hfull
        exact (Option.some.inj hfull).symm
      · rw [List.getElem?_len_le (by simpa using Nat.le_of_not_lt hin)] at hfull
        simp at hfull
    refine ⟨hraw, ?_⟩
    intro i p hp2
    unfold Fdt.get_reserved_memory_regions at hp2
    rw [hs, List.getElem?_map] at hp2
    cases he : l[i]? with
    | none => rw [he] at hp2; simp at hp2
    | some e =>
      rw [he] at hp2
      simp only [Option.map_some'] at hp2
      have he' := hraw i e he
      subst he'
      rw [← Option.some.inj hp2]
      unfold rsvEntry
      simp only [bswap64_readU64]

/-! Concrete material used by the underflow claim: a header whose
structure-block offset lies below the reservation-table offset, and a
blob with valid magic exhibiting that header (off_dt_struct = 8,
off_mem_rsvmap = 40). -/

def hdrBadW : FdtHeader :=
  { magic := 0xd00dfeed, totalsize := 0, off_dt_struct := 0, off_dt_strings := 0
    off_mem_rsvmap := 16, version := 0, last_comp_version := 0, boot_cpuid_phys := 0
    size_dt_strings := 0, size_dt_struct := 0 }

def blobBad : List Nat :=
  [0xd0, 0x0d, 0xfe, 0xed,
   0, 0, 0, 64,
   0, 0, 0, 8,
   0, 0, 0, 0,
   0, 0, 0, 40,
   0, 0, 0, 17,
   0, 0, 0, 16,
   0, 0, 0, 0,
   0, 0, 0, 0,
   0, 0, 0, 0]

def memBad (i : Nat) : Nat := blobBad.getD (i - 4096) 0

/-- C10: `_parse_mem_reserve` is total exactly under the precondition
`off_mem_rsvmap ≤ off_dt_struct`; whenever `off_dt_struct` is strictly
below `off_mem_rsvmap` the `u32` subtraction underflows and the
checked-arithmetic panic (modelled `none`) is taken, and `Fdt::new`
performs no validation of this precondition: on a blob with valid magic
but `off_dt_struct = 8 < 40 = off_mem_rsvmap` construction reaches the
panic. -/
theorem mem_reserve_underflow_panic :
    (∀ (fdt_addr : Nat) (mem : Nat → Nat) (fdt_hdr : FdtHeader),
        fdt_hdr.off_dt_struct < fdt_hdr.off_mem_rsvmap →
        _parse_mem_reserve fdt_addr mem fdt_hdr = none) ∧
    (∀ (fdt_addr : Nat) (mem : Nat → Nat) (fdt_hdr : FdtHeader),
        fdt_hdr.off_mem_rsvmap ≤ fdt_hdr.off_dt_struct →
        ∃ l, _parse_mem_reserve fdt_addr mem fdt_hdr = some l) ∧
    Fdt.new 4096 memBad = none := by
  refine ⟨?_, ?_, ?_⟩
  · intro fdt_addr mem fdt_hdr hlt
    unfold _parse_mem_reserve
    rw [if_pos hlt]
  · intro fdt_addr mem fdt_hdr hle
    unfold _parse_mem_reserve
    rw [if_neg (Nat.not_lt.mpr hle)]
    exact ⟨_, rfl⟩
  · rfl

/-- Witness for C10: the underflow branch at a concrete header with
`off_dt_struct = 0 < 16 = off_mem_rsvmap`. -/
theorem mem_reserve_underflow_panic_witness :
    _parse_mem_reserve 0 (fun _ => 0) hdrBadW = none :=
  mem_reserve_underflow_panic.1 0 (fun _ => 0) hdrBadW (by decide)

/-! Concrete reservation-table material for witnesses: one real entry
(address 256, size 2, big-endian on the wire) followed by an all-zero
sentinel. -/

def blobW9 : List Nat :=
  [0, 0, 0, 0, 0, 0, 1, 0,
   0, 0, 0, 0, 0, 0, 0, 2,
   0, 0, 0, 0, 0, 0, 0, 0,
   0, 0, 0, 0, 0, 0, 0, 0]

def memW9 (i : Nat) : Nat := blobW9.getD i 0

def hdrW9 : FdtHeader :=
  { magic := 0xd00dfeed, totalsize := 0, off_dt_struct := 32, off_dt_strings := 0
    off_mem_rsvmap := 0, version := 0, last_comp_version := 0, boot_cpuid_phys := 0
    size_dt_strings := 0, size_dt_struct := 0 }

def hdrW6 : FdtHeader :=
  { magic := 0xd00dfeed, totalsize := 0, off_dt_struct := 16, off_dt_strings := 0
    off_mem_rsvmap := 0, version := 0, last_comp_version := 0, boot_cpuid_phys := 0
    size_dt_strings := 0, size_dt_struct := 0 }

def lW9 : List FdtReserveEntry :=
  [{ address := 281474976710656, size := 144115188075855872 }]

def fdtW9 : Fdt :=
  { header := hdrW9, reserved_memory := lW9, dt_struct := [], dt_strings := [] }

/-- Witness for C1: a table with the sentinel at index 1 within a bound of
2 yields exactly the one entry before it. -/
theorem mem_reserve_sentinel_spec_witness :
    _parse_mem_reserve 0 memW9 hdrW9 = some ((List.range 1).map (rsvEntry 0 memW9 hdrW9)) :=
  (mem_reserve_sentinel_spec 0 memW9 hdrW9 1 (by decide) (by decide) (by decide)
    (fun j hj => by
      have hj0 : j = 0 := Nat.lt_one_iff.mp hj
      subst hj0
      decide)).1

/-- Witness for C6: a table whose single in-bound entry is not a sentinel
is returned whole. -/
theorem mem_reserve_no_sentinel_full_witness :
    _parse_mem_reserve 0 memW9 hdrW6 = some ((List.range 1).map (rsvEntry 0 memW9 hdrW6)) :=
  (mem_reserve_no_sentinel_full 0 memW9 hdrW6 (by decide)
    (fun j hj => by
      have hj0 : j = 0 := Nat.lt_one_iff.mp hj
      subst hj0
      decide)).1

/-- Witness for C9: the pair yielded for the concrete stored entry is the
big-endian decode of its on-wire bytes, i.e. (256, 2). -/
theorem reserved_regions_host_order_witness :
    ((256 : Nat), (2 : Nat)) = (readU64BE memW9 (0 + hdrW9.off_mem_rsvmap + 16 * 0),
        readU64BE memW9 (0 + hdrW9.off_mem_rsvmap + 16 * 0 + 8)) :=
  (reserved_regions_host_order 0 memW9 hdrW9 lW9 fdtW9 (by rfl) rfl).2 0 (256, 2) (by rfl)

/-! ### Claims about the header reader and the constructor -/

theorem parse_header_eq (fdt_addr : Nat) (mem : Nat → Nat) :
    _parse_header fdt_addr mem =
      if bswap32 (readU32 mem fdt_addr) = FDT_HDR_MAGIC then
        Except.ok (bswapHeader (rawHeader fdt_addr mem))
      else Except.error FdtError.InvalidMagic := by
  show (if bswap32 (rawHeader fdt_addr mem).magic == FDT_HDR_MAGIC then
          Except.ok (bswapHeader (rawHeader fdt_addr mem))
        else Except.error FdtError.InvalidMagic) = _
  simp only [rawHeader, beq_iff_eq]

theorem fdt_new_eq (fdt_addr : Nat) (mem : Nat → Nat) (h : fdt_addr ≠ 0) :
    Fdt.new fdt_addr mem =
      if bswap32 (readU32 mem fdt_addr) = FDT_HDR_MAGIC then
        match _parse_mem_reserve fdt_addr mem (bswapHeader (rawHeader fdt_addr mem)) with
        | none => none
        | some mem_reserve =>
            some (Except.ok
              { header := bswapHeader (rawHeader fdt_addr mem)
                reserved_memory := mem_reserve
                dt_struct := _parse_dt_struct fdt_addr mem (bswapHeader (rawHeader fdt_addr mem))
                dt_strings := _parse_dt_strings fdt_addr mem (bswapHeader (rawHeader fdt_addr mem)) })
      else some (Except.error FdtError.InvalidMagic) := by
  unfold Fdt.new
  rw [if_neg h, parse_header_eq]
  by_cases hm : bswap32 (readU32 mem fdt_addr) = FDT_HDR_MAGIC
  · simp only [if_pos hm]
  · simp only [if_neg hm]

/-- C2: `_parse_header` succeeds exactly when the byte-swapped on-wire
magic equals `FDT_HDR_MAGIC = 0xd00dfeed`, any other magic yields
`InvalidMagic`, `NotFound` is never returned (neither by `_parse_header`
nor by `Fdt::new`), and for non-null addresses `Fdt::new` returns
`InvalidMagic` exactly when the magic mismatches. -/
theorem header_magic_validation :
    (∀ (fdt_addr : Nat) (mem : Nat → Nat),
        bswap32 (readU32 mem fdt_addr) = FDT_HDR_MAGIC →
        _parse_header fdt_addr mem = Except.ok (bswapHeader (rawHeader fdt_addr mem))) ∧
    (∀ (fdt_addr : Nat) (mem : Nat → Nat),
        bswap32 (readU32 mem fdt_addr) ≠ FDT_HDR_MAGIC →
        _parse_header fdt_addr mem = Except.error FdtError.InvalidMagic) ∧
    (∀ (fdt_addr : Nat) (mem : Nat → Nat),
        _parse_header fdt_addr mem ≠ Except.error FdtError.NotFound) ∧
    (∀ (fdt_addr : Nat) (mem : Nat → Nat), fdt_addr ≠ 0 →
        (Fdt.new fdt_addr mem = some (Except.error FdtError.InvalidMagic) ↔
          bswap32 (readU32 mem fdt_addr) ≠ FDT_HDR_MAGIC)) ∧
    (∀ (fdt_addr : Nat) (mem : Nat → Nat),
        Fdt.new fdt_addr mem ≠ some (Except.error FdtError.NotFound)) := by
  refine ⟨?_, ?_, ?_, ?_, ?_⟩
  · intro fdt_addr mem h
    rw [parse_header_eq, if_pos h]
  · intro fdt_addr mem h
    rw [parse_header_eq, if_neg h]
  · intro fdt_addr mem
    rw [parse_header_eq]
    by_cases h : bswap32 (readU32 mem fdt_addr) = FDT_HDR_MAGIC
    · rw [if_pos h]; simp
    · rw [if_neg h]; simp
  · intro fdt_addr mem haddr
    rw [fdt_new_eq fdt_addr mem haddr]
    by_cases h : bswap32 (readU32 mem fdt_addr) = FDT_HDR_MAGIC
    · rw [if_pos h]
      constructor
      · intro hc
        exfalso
        cases hmr : _parse_mem_reserve fdt_addr mem (bswapHeader (rawHeader fdt_addr mem)) with
        | none => rw [hmr] at hc; simp at hc
        | some mr => rw [hmr] at hc; simp at hc
      · intro hc
        exact absurd h hc
    · rw [if_neg h]
      simp [h]
  · intro fdt_addr mem
    by_cases haddr : fdt_addr = 0
    · subst haddr
      show some (Except.error FdtError.InvalidPointer) ≠ _
      simp
    · rw [fdt_new_eq fdt_addr mem haddr]
      by_cases h : bswap32 (readU32 mem fdt_addr) = FDT_HDR_MAGIC
      · rw [if_pos h]
        cases hmr : _parse_mem_reserve fdt_addr mem (bswapHeader (rawHeader fdt_addr mem)) with
        | none => simp
        | some mr => simp
      · rw [if_neg h]
        simp

/-! Concrete four-byte blob holding the big-endian magic, for the header
witnesses. -/

def memW (i : Nat) : Nat := [0xd0, 0x0d, 0xfe, 0xed].getD i 0

/-- Witness for C2: the good-magic blob parses, and the all-zero blob is
rejected with `InvalidMagic`. -/
theorem header_magic_validation_witness :
    _parse_header 0 memW = Except.ok (bswapHeader (rawHeader 0 memW)) ∧
    _parse_header 0 (fun _ => 0) = Except.error FdtError.InvalidMagic :=
  ⟨header_magic_validation.1 0 memW (by decide),
   header_magic_validation.2.1 0 (fun _ => 0) (by decide)⟩

theorem bswap32_involution_read (mem : Nat → Nat) (off : Nat) :
    bswap32 (bswap32 (readU32 mem off)) = readU32 mem off := by
  rw [bswap32_readU32, bswap32_readU32BE]

/-- C7: whenever header parsing succeeds, re-encoding each of the ten
stored host-order fields once with a byte swap reproduces the original
pre-swap 32-bit value read from the blob. -/
theorem header_fields_roundtrip (fdt_addr : Nat) (mem : Nat → Nat) (hdr : FdtHeader)
    (h : _parse_header fdt_addr mem = Except.ok hdr) :
    bswap32 hdr.magic = readU32 mem fdt_addr ∧
    bswap32 hdr.totalsize = readU32 mem (fdt_addr + 4) ∧
    bswap32 hdr.off_dt_struct = readU32 mem (fdt_addr + 8) ∧
    bswap32 hdr.off_dt_strings = readU32 mem (fdt_addr + 12) ∧
    bswap32 hdr.off_mem_rsvmap = readU32 mem (fdt_addr + 16) ∧
    bswap32 hdr.version = readU32 mem (fdt_addr + 20) ∧
    bswap32 hdr.last_comp_version = readU32 mem (fdt_addr + 24) ∧
    bswap32 hdr.boot_cpuid_phys = readU32 mem (fdt_addr + 28) ∧
    bswap32 hdr.size_dt_strings = readU32 mem (fdt_addr + 32) ∧
    bswap32 hdr.size_dt_struct = readU32 mem (fdt_addr + 36) := by
  rw [parse_header_eq] at h
  by_cases hm : bswap32 (readU32 mem fdt_addr) = FDT_HDR_MAGIC
  · rw [if_pos hm] at h
    injection h with h'
    subst h'
    exact ⟨bswap32_involution_read mem fdt_addr, bswap32_involution_read mem (fdt_addr + 4),
      bswap32_involution_read mem (fdt_addr + 8), bswap32_involution_read mem (fdt_addr + 12),
      bswap32_involution_read mem (fdt_addr + 16), bswap32_involution_read mem (fdt_addr + 20),
      bswap32_involution_read mem (fdt_addr + 24), bswap32_involution_read mem (fdt_addr + 28),
      bswap32_involution_read mem (fdt_addr + 32), bswap32_involution_read mem (fdt_addr + 36)⟩
  · rw [if_neg hm] at h
    exact absurd h (by simp)

def hdrW : FdtHeader := bswapHeader (rawHeader 0 memW)

/-- Witness for C7: the round-trip at the concrete good-magic blob. -/
theorem header_fields_roundtrip_witness :
    bswap32 hdrW.magic = readU32 memW 0 ∧
    bswap32 hdrW.totalsize = readU32 memW (0 + 4) ∧
    bswap32 hdrW.off_dt_struct = readU32 memW (0 + 8) ∧
    bswap32 hdrW.off_dt_strings = readU32 memW (0 + 12) ∧
    bswap32 hdrW.off_mem_rsvmap = readU32 memW (0 + 16) ∧
    bswap32 hdrW.version = readU32 memW (0 + 20) ∧
    bswap32 hdrW.last_comp_version = readU32 memW (0 + 24) ∧
    bswap32 hdrW.boot_cpuid_phys = readU32 memW (0 + 28) ∧
    bswap32 hdrW.size_dt_strings = readU32 memW (0 + 32) ∧
    bswap32 hdrW.size_dt_struct = readU32 memW (0 + 36) :=
  header_fields_roundtrip 0 memW hdrW (by rfl)

/-- C8: a null (zero) starting address always yields `InvalidPointer`,
for every memory content whatsoever — the check precedes any read, so the
result does not depend on memory at all. -/
theorem null_addr_invalid_pointer (mem : Nat → Nat) :
    Fdt.new 0 mem = some (Except.error FdtError.InvalidPointer) := rfl

/-! ### Claims about the string lookup -/

/-- C3: for an in-range offset such that a NUL exists at or after it in
the strings region and the bytes before that NUL are valid UTF-8,
`get_string` returns exactly the bytes from the offset up to (excluding)
the first NUL. -/
theorem get_string_found_spec (fdt : Fdt) (offset : Nat)
    (hoff : offset < fdt.header.size_dt_strings)
    (hlen : fdt.header.size_dt_strings ≤ fdt.dt_strings.length)
    (hnul : 0 ∈ (fdt.dt_strings.take fdt.header.size_dt_strings).drop offset)
    (hutf : validUtf8 (((fdt.dt_strings.take fdt.header.size_dt_strings).drop offset).takeWhile
        (fun b => b != 0)) = true) :
    Fdt.get_string fdt offset =
      some (some (((fdt.dt_strings.take fdt.header.size_dt_strings).drop offset).takeWhile
        (fun b => b != 0))) := by
  unfold Fdt.get_string
  rw [if_pos hoff, if_pos hlen, cstrOfMemNul _ hnul]
  show (if validUtf8 (((fdt.dt_strings.take fdt.header.size_dt_strings).drop offset).takeWhile
      (fun b => b != 0)) then
        some (some (((fdt.dt_strings.take fdt.header.size_dt_strings).drop offset).takeWhile
          (fun b => b != 0)))
      else none) = _
  rw [if_pos hutf]

def hdrW3 : FdtHeader :=
  { magic := 0xd00dfeed, totalsize := 0, off_dt_struct := 0, off_dt_strings := 0
    off_mem_rsvmap := 0, version := 0, last_comp_version := 0, boot_cpuid_phys := 0
    size_dt_strings := 4, size_dt_struct := 0 }

def fdtW3 : Fdt :=
  { header := hdrW3, reserved_memory := [], dt_struct := [], dt_strings := [102, 111, 111, 0] }

/-- Witness for C3: looking up offset 0 in the strings region
`"foo\x00"` returns the bytes of `"foo"`. -/
theorem get_string_found_spec_witness :
    Fdt.get_string fdtW3 0 =
      some (some (((fdtW3.dt_strings.take fdtW3.header.size_dt_strings).drop 0).takeWhile
        (fun b => b != 0))) :=
  get_string_found_spec fdtW3 0 (by decide) (by decide) (by decide) (by decide)

/-- C4: for any offset at or beyond `size_dt_strings`, `get_string`
returns the not-found result, and it does so for every possible contents
of the strings region — no byte of the region is consulted. -/
theorem get_string_oob_spec (hdr : FdtHeader) (rsv : List FdtReserveEntry)
    (dstruct : List Nat) (offset : Nat)
    (hoff : hdr.size_dt_strings ≤ offset) :
    ∀ (s : List Nat),
      Fdt.get_string
        { header := hdr, reserved_memory := rsv, dt_struct := dstruct, dt_strings := s }
        offset = some none := by
  intro s
  unfold Fdt.get_string
  rw [if_neg (Nat.not_lt.mpr hoff)]

/-- Witness for C4: offset 5 with `size_dt_strings = 4` is not found,
whatever bytes the region holds. -/
theorem get_string_oob_spec_witness :
    Fdt.get_string
      { header := hdrW3, reserved_memory := [], dt_struct := [], dt_strings := [1, 2, 3] }
      5 = some none :=
  get_string_oob_spec hdrW3 [] [] 5 (by decide) [1, 2, 3]

/-! ### The end-to-end synthetic-blob scenario -/

/-- The synthetic blob of the end-to-end scenario: a header whose fields
point at a 5-entry reservation table (4 real entries, then the sentinel)
at offset 40, an 8-byte structure block at offset 120, and a 10-byte
strings block at offset 128 containing `"foo\x00bar\x00"` padded with two
NUL bytes.  The blob is placed at address 4096. -/
def blobC5 : List Nat :=
  [0xd0, 0x0d, 0xfe, 0xed,
   0, 0, 0, 64,
   0, 0, 0, 120,
   0, 0, 0, 128,
   0, 0, 0, 40,
   0, 0, 0, 17,
   0, 0, 0, 16,
   0, 0, 0, 0,
   0, 0, 0, 10,
   0, 0, 0, 8,
   0, 0, 0, 0, 0, 0, 0, 1,  0, 0, 0, 0, 0, 0, 0, 5,
   0, 0, 0, 0, 0, 0, 0, 2,  0, 0, 0, 0, 0, 0, 0, 6,
   0, 0, 0, 0, 0, 0, 0, 3,  0, 0, 0, 0, 0, 0, 0, 7,
   0, 0, 0, 0, 0, 0, 0, 4,  0, 0, 0, 0, 0, 0, 0, 8,
   0, 0, 0, 0, 0, 0, 0, 0,  0, 0, 0, 0, 0, 0, 0, 0,
   0, 0, 0, 9, 0, 0, 0, 0,
   102, 111, 111, 0, 98, 97, 114, 0, 0, 0]

def memC5 (i : Nat) : Nat := blobC5.getD (i - 4096) 0

def hdrC5 : FdtHeader :=
  { magic := 0xd00dfeed, totalsize := 64, off_dt_struct := 120, off_dt_strings := 128
    off_mem_rsvmap := 40, version := 17, last_comp_version := 16, boot_cpuid_phys := 0
    size_dt_strings := 10, size_dt_struct := 8 }

/-- The handle produced for the synthetic blob: reservation entries kept
in on-wire byte order (each raw load puts the big-endian bytes in the
high-order positions of the host value). -/
def fdtC5 : Fdt :=
  { header := hdrC5
    reserved_memory :=
      [{ address := 72057594037927936, size := 360287970189639680 },
       { address := 144115188075855872, size := 432345564227567616 },
       { address := 216172782113783808, size := 504403158265495552 },
       { address := 288230376151711744, size := 576460752303423488 }]
    dt_struct := [0, 0, 0, 9, 0, 0, 0, 0]
    dt_strings := [102, 111, 111, 0, 98, 97, 114, 0, 0, 0] }

/-- Counterexample to C5 as stated: on the scenario blob, `get_string 9`
does not return the not-found result — offset 9 is still inside the
10-byte strings region, so the lookup returns the empty string found
before the trailing NUL. -/
theorem synthetic_blob_get_string9_cex :
    Fdt.new 4096 memC5 = some (Except.ok fdtC5) ∧
    Fdt.get_string fdtC5 9 ≠ some none :=
  ⟨rfl, by decide⟩

/-- C5 (amended): on the synthetic blob, construction succeeds,
`get_reserved_memory_regions` yields exactly the 4 host-order pairs,
`get_string 0 = "foo"`, `get_string 4 = "bar"`, `get_string 9` returns
the empty string (offset 9 is inside the region, before the final
padding NUL), and `get_string 10` returns the not-found result. -/
theorem synthetic_blob_end_to_end :
    Fdt.new 4096 memC5 = some (Except.ok fdtC5) ∧
    (Fdt.get_reserved_memory_regions fdtC5).length = 4 ∧
    Fdt.get_reserved_memory_regions fdtC5 = [(1, 5), (2, 6), (3, 7), (4, 8)] ∧
    Fdt.get_string fdtC5 0 = some (some [102, 111, 111]) ∧
    Fdt.get_string fdtC5 4 = some (some [98, 97, 114]) ∧
    Fdt.get_string fdtC5 9 = some (some []) ∧
    Fdt.get_string fdtC5 10 = some none :=
  ⟨rfl, rfl, rfl, rfl, rfl, rfl, rfl⟩
